import Mathlib

/-!
Verification of the screenshotone/jssdk client library (src/src/main.ts,
src/src/errors.ts, src/signature.ts).

The embedding models:
* the WHATWG `URLSearchParams` multi-map used by both option builders
  (`append`, `set`, the x-www-form-urlencoded serializer and parser);
* the `TakeOptions` / `AnimateOptions` builders and their `put` helper;
* the `Client` URL-generation methods and the error path of `Client.animate`;
* `signQueryString` (HMAC-SHA-256, lowercase hex) from src/signature.ts;
* the geolocation formatting `new Big(x).toFixed(20).replace(/0+$/, "")`.

Strings are JS strings, queries are ordered lists of (key, value) pairs,
bytes are `Nat` values below 256.
-/

set_option maxRecDepth 8000

namespace ScreenshotOne

/-- UTF-8 encoding of a Unicode code point (the byte sequence
`TextEncoder.encode` produces for one character). -/
def utf8Bytes (n : Nat) : List Nat :=
  if n < 0x80 then [n]
  else if n < 0x800 then [0xC0 + n / 0x40, 0x80 + n % 0x40]
  else if n < 0x10000 then
    [0xE0 + n / 0x1000, 0x80 + n / 0x40 % 0x40, 0x80 + n % 0x40]
  else
    [0xF0 + n / 0x40000, 0x80 + n / 0x1000 % 0x40, 0x80 + n / 0x40 % 0x40, 0x80 + n % 0x40]

/-- The UTF-8 bytes of a string (JS `TextEncoder.encode`). -/
def strBytes (s : String) : List Nat :=
  (s.data.map (fun c => utf8Bytes c.toNat)).flatten

/-- U+FFFD, emitted by the WHATWG UTF-8 decoder on malformed input. -/
def replacementChar : Char := Char.ofNat 0xFFFD

/-- Is the byte a UTF-8 continuation byte (10xxxxxx)? -/
def contByte (b : Nat) : Bool := decide (0x80 ≤ b ∧ b < 0xC0)

/-- UTF-8 decoding, fuelled by the input length (each step consumes at least
one byte).  Malformed sequences yield U+FFFD; well-formed input is decoded
exactly, which is all the round-trip proofs rely on. -/
def utf8DecodeAux : Nat → List Nat → List Char
  | 0, _ => []
  | _ + 1, [] => []
  | fuel + 1, b0 :: rest =>
    if b0 < 0x80 then Char.ofNat b0 :: utf8DecodeAux fuel rest
    else if b0 < 0xC0 then replacementChar :: utf8DecodeAux fuel rest
    else if b0 < 0xE0 then
      match rest with
      | b1 :: rest1 =>
        if contByte b1 then
          Char.ofNat ((b0 - 0xC0) * 0x40 + (b1 - 0x80)) :: utf8DecodeAux fuel rest1
        else replacementChar :: utf8DecodeAux fuel rest
      | [] => [replacementChar]
    else if b0 < 0xF0 then
      match rest with
      | b1 :: b2 :: rest2 =>
        if contByte b1 && contByte b2 then
          Char.ofNat ((b0 - 0xE0) * 0x1000 + (b1 - 0x80) * 0x40 + (b2 - 0x80)) ::
            utf8DecodeAux fuel rest2
        else replacementChar :: utf8DecodeAux fuel rest
      | _ => [replacementChar]
    else
      match rest with
      | b1 :: b2 :: b3 :: rest3 =>
        if contByte b1 && contByte b2 && contByte b3 then
          Char.ofNat
              ((b0 - 0xF0) * 0x40000 + (b1 - 0x80) * 0x1000 + (b2 - 0x80) * 0x40 + (b3 - 0x80)) ::
            utf8DecodeAux fuel rest3
        else replacementChar :: utf8DecodeAux fuel rest
      | _ => [replacementChar]

/-- UTF-8 decoding of a byte sequence (JS `TextDecoder`). -/
def utf8Decode (l : List Nat) : List Char := utf8DecodeAux l.length l

/-- Is the byte left unescaped by the x-www-form-urlencoded serializer?
Those are ASCII alphanumerics and `*`, `-`, `.`, `_` (WHATWG URL standard). -/
def isUnreservedByte (b : Nat) : Bool :=
  decide ((0x30 ≤ b ∧ b ≤ 0x39) ∨ (0x41 ≤ b ∧ b ≤ 0x5A) ∨ (0x61 ≤ b ∧ b ≤ 0x7A) ∨
    b = 0x2A ∨ b = 0x2D ∨ b = 0x2E ∨ b = 0x5F)

/-- The byte value of the uppercase hex digit for `n < 16`. -/
def hexUpperByte (n : Nat) : Nat := if n < 10 then 0x30 + n else 0x37 + n

/-- x-www-form-urlencoded serialization of one byte: space becomes `+`,
unreserved bytes stay, everything else becomes `%XY` with uppercase hex. -/
def encByte (b : Nat) : List Nat :=
  if b == 0x20 then [0x2B]
  else if isUnreservedByte b then [b]
  else [0x25, hexUpperByte (b / 16), hexUpperByte (b % 16)]

/-- x-www-form-urlencoded serialization of a string, as characters. -/
def formEncodeChars (s : String) : List Char :=
  (((strBytes s).map encByte).flatten).map Char.ofNat

/-- x-www-form-urlencoded serialization of a string. -/
def formEncode (s : String) : String := ⟨formEncodeChars s⟩

/-- Hex digit value of a byte, if it is an ASCII hex digit. -/
def hexVal (b : Nat) : Option Nat :=
  if 0x30 ≤ b ∧ b ≤ 0x39 then some (b - 0x30)
  else if 0x41 ≤ b ∧ b ≤ 0x46 then some (b - 0x37)
  else if 0x61 ≤ b ∧ b ≤ 0x66 then some (b - 0x57)
  else none

/-- Percent-decoding on bytes, fuelled by the input length: `%XY` with two hex
digits becomes one byte, everything else passes through. -/
def percentDecodeAux : Nat → List Nat → List Nat
  | 0, _ => []
  | _ + 1, [] => []
  | fuel + 1, b :: rest =>
    if b = 0x25 then
      match rest with
      | h1 :: h2 :: rest2 =>
        match hexVal h1, hexVal h2 with
        | some x, some y => (16 * x + y) :: percentDecodeAux fuel rest2
        | _, _ => b :: percentDecodeAux fuel rest
      | _ => b :: percentDecodeAux fuel rest
    else b :: percentDecodeAux fuel rest

/-- Percent-decoding on bytes. -/
def percentDecode (l : List Nat) : List Nat := percentDecodeAux l.length l

/-- Decoding of one x-www-form-urlencoded component (given as the characters
of the serialized form): `+` becomes space, then percent-decode, then UTF-8
decode (the WHATWG `application/x-www-form-urlencoded` parser). -/
def decodeComp (l : List Char) : String :=
  ⟨utf8Decode (percentDecode ((l.map Char.toNat).map (fun b => if b = 0x2B then 0x20 else b)))⟩

/-- An ordered multi-map of query parameters: the contents of a
`URLSearchParams` object. -/
abbrev Params := List (String × String)

/-- `URLSearchParams.append(k, v)`: adds the pair at the end. -/
def appendParam (q : Params) (k v : String) : Params := q ++ [(k, v)]

/-- Helper of `URLSearchParams.set`: removes every pair named `k`. -/
def removeParam : Params → String → Params
  | [], _ => []
  | p :: rest, k => if p.1 = k then removeParam rest k else p :: removeParam rest k

/-- `URLSearchParams.set(k, v)`: replaces the value of the first pair named
`k` in place and removes the other pairs named `k`; appends if `k` is absent
(WHATWG URL standard). -/
def setParam : Params → String → String → Params
  | [], k, v => [(k, v)]
  | p :: rest, k, v =>
    if p.1 = k then (k, v) :: removeParam rest k else p :: setParam rest k v

/-- `URLSearchParams.toString()`: each pair serialized as
`key=value` with x-www-form-urlencoded escaping, joined by `&`. -/
def serializeParams (q : Params) : String :=
  ⟨List.intercalate ['&'] (q.map (fun p => formEncodeChars p.1 ++ '=' :: formEncodeChars p.2))⟩

/-- The `URLSearchParams(string)` constructor's parser: split on `&`, skip
empty segments, split each segment at its first `=` (missing `=` gives an
empty value), and decode name and value as form-urlencoded components. -/
def parseParams (s : String) : Params :=
  ((s.data.splitOn '&').filter (fun t => ¬t.isEmpty)).map (fun t =>
    (decodeComp (t.takeWhile (fun c => ¬c = '=')),
      decodeComp ((t.dropWhile (fun c => ¬c = '=')).drop 1)))

/-- All values stored under a key, in order (`URLSearchParams.getAll`). -/
def getAll (q : Params) (k : String) : List String :=
  (q.filter (fun p => p.1 = k)).map Prod.snd

/-- The body of `TakeOptions.put` and `AnimateOptions.put` (identical in the
source): for each supplied value, `set` when the call supplied exactly one
value, `append` otherwise.  The `values.length == 1` test in the source reads
the whole argument list, so it is constant across the loop. -/
def putParams (q : Params) (key : String) (values : List String) : Params :=
  values.foldl
    (fun acc v => if values.length = 1 then setParam acc key v else appendParam acc key v) q

/-- Options for taking screenshots; wraps the private `URLSearchParams`. -/
structure TakeOptions where
  query : Params

/-- `TakeOptions.put` from src/src/main.ts. -/
def TakeOptions.put (o : TakeOptions) (key : String) (values : List String) : TakeOptions :=
  ⟨putParams o.query key values⟩

/-- `TakeOptions.url`: a fresh options object with `url` set. -/
def TakeOptions.url (u : String) : TakeOptions := TakeOptions.put ⟨[]⟩ "url" [u]

/-- `TakeOptions.html`. -/
def TakeOptions.html (h : String) : TakeOptions := TakeOptions.put ⟨[]⟩ "html" [h]

/-- `TakeOptions.markdown`. -/
def TakeOptions.markdown (m : String) : TakeOptions := TakeOptions.put ⟨[]⟩ "markdown" [m]

def TakeOptions.blockAds (o : TakeOptions) (b : Bool) : TakeOptions :=
  o.put "block_ads" [if b then "true" else "false"]

def TakeOptions.fullPage (o : TakeOptions) (b : Bool) : TakeOptions :=
  o.put "full_page" [if b then "true" else "false"]

def TakeOptions.userAgent (o : TakeOptions) (ua : String) : TakeOptions :=
  o.put "user_agent" [ua]

def TakeOptions.hideSelectors (o : TakeOptions) (selectors : List String) : TakeOptions :=
  o.put "hide_selectors" selectors

def TakeOptions.scriptsWaitUntil (o : TakeOptions) (until_ : List String) : TakeOptions :=
  o.put "scripts_wait_until" until_

def TakeOptions.blockRequests (o : TakeOptions) (reqs : List String) : TakeOptions :=
  o.put "block_requests" reqs

def TakeOptions.blockResources (o : TakeOptions) (res : List String) : TakeOptions :=
  o.put "block_resources" res

def TakeOptions.cookies (o : TakeOptions) (cookies : List String) : TakeOptions :=
  o.put "cookies" cookies

def TakeOptions.headers (o : TakeOptions) (headers : List String) : TakeOptions :=
  o.put "headers" headers

/-- `TakeOptions.toQuery`: `new URLSearchParams(this.query.toString())` — a
fresh multi-map parsed back from the serialized form of the private one. -/
def TakeOptions.toQuery (o : TakeOptions) : Params :=
  parseParams (serializeParams o.query)

/-- Options for animated screenshots; a second, structurally identical class
in the source. -/
structure AnimateOptions where
  query : Params

/-- `AnimateOptions.put` from src/src/main.ts (same body as the take variant). -/
def AnimateOptions.put (o : AnimateOptions) (key : String) (values : List String) :
    AnimateOptions :=
  ⟨putParams o.query key values⟩

/-- `AnimateOptions.url`. -/
def AnimateOptions.url (u : String) : AnimateOptions := AnimateOptions.put ⟨[]⟩ "url" [u]

def AnimateOptions.blockAds (o : AnimateOptions) (b : Bool) : AnimateOptions :=
  o.put "block_ads" [if b then "true" else "false"]

def AnimateOptions.hideSelectors (o : AnimateOptions) (selectors : List String) :
    AnimateOptions :=
  o.put "hide_selectors" selectors

def AnimateOptions.scriptsWaitUntil (o : AnimateOptions) (until_ : List String) :
    AnimateOptions :=
  o.put "scripts_wait_until" until_

def AnimateOptions.blockRequests (o : AnimateOptions) (reqs : List String) : AnimateOptions :=
  o.put "block_requests" reqs

def AnimateOptions.blockResources (o : AnimateOptions) (res : List String) : AnimateOptions :=
  o.put "block_resources" res

def AnimateOptions.cookies (o : AnimateOptions) (cookies : List String) : AnimateOptions :=
  o.put "cookies" cookies

def AnimateOptions.headers (o : AnimateOptions) (headers : List String) : AnimateOptions :=
  o.put "headers" headers

/-- `AnimateOptions.toQuery`. -/
def AnimateOptions.toQuery (o : AnimateOptions) : Params :=
  parseParams (serializeParams o.query)

/-! ## SHA-256 and HMAC (src/signature.ts: WebCrypto HMAC with SHA-256) -/

/-- Truncation to a 32-bit word. -/
def w32 (n : Nat) : Nat := n % 4294967296

/-- 32-bit right rotation. -/
def rotr (n x : Nat) : Nat := w32 ((x >>> n) ||| (x <<< (32 - n)))

def bsig0 (x : Nat) : Nat := rotr 2 x ^^^ rotr 13 x ^^^ rotr 22 x

def bsig1 (x : Nat) : Nat := rotr 6 x ^^^ rotr 11 x ^^^ rotr 25 x

def ssig0 (x : Nat) : Nat := rotr 7 x ^^^ rotr 18 x ^^^ (x >>> 3)

def ssig1 (x : Nat) : Nat := rotr 17 x ^^^ rotr 19 x ^^^ (x >>> 10)

/-- The 64 SHA-256 round constants, as decimal values. -/
def sha256K : List Nat :=
  [1116352408, 1899447441, 3049323471, 3921009573, 961987163, 1508970993,
   2453635748, 2870763221, 3624381080, 310598401, 607225278, 1426881987,
   1925078388, 2162078206, 2614888103, 3248222580, 3835390401, 4022224774,
   264347078, 604807628, 770255983, 1249150122, 1555081692, 1996064986,
   2554220882, 2821834349, 2952996808, 3210313671, 3336571891, 3584528711,
   113926993, 338241895, 666307205, 773529912, 1294757372, 1396182291,
   1695183700, 1986661051, 2177026350, 2456956037, 2730485921, 2820302411,
   3259730800, 3345764771, 3516065817, 3600352804, 4094571909, 275423344,
   430227734, 506948616, 659060556, 883997877, 958139571, 1322822218,
   1537002063, 1747873779, 1955562222, 2024104815, 2227730452, 2361852424,
   2428436474, 2756734187, 3204031479, 3329325298]

/-- The eight SHA-256 initial hash words, as decimal values. -/
def sha256H0 : List Nat :=
  [1779033703, 3144134277, 1013904242, 2773480762, 1359893119, 2600822924,
   528734635, 1541459225]

/-- Big-endian bytes of a number, fixed width. -/
def beBytes : Nat → Nat → List Nat
  | 0, _ => []
  | c + 1, n => beBytes c (n / 256) ++ [n % 256]

/-- SHA-256 padding: append `0x80`, zeros to 56 mod 64, and the bit length as
eight big-endian bytes. -/
def sha256Pad (msg : List Nat) : List Nat :=
  msg ++ [0x80] ++ List.replicate ((119 - msg.length % 64) % 64) 0 ++ beBytes 8 (8 * msg.length)

/-- Group bytes into big-endian 32-bit words. -/
def bytesToWords : List Nat → List Nat
  | b0 :: b1 :: b2 :: b3 :: rest =>
    (((b0 * 256 + b1) * 256 + b2) * 256 + b3) :: bytesToWords rest
  | _ => []

/-- Extend the message schedule; the accumulator holds the words in reverse
(newest first). -/
def extendW : Nat → List Nat → List Nat
  | 0, r => r
  | n + 1, r =>
    extendW n
      (w32 (ssig1 (r.getD 1 0) + r.getD 6 0 + ssig0 (r.getD 14 0) + r.getD 15 0) :: r)

/-- The 64-word message schedule of one 16-word block. -/
def messageSchedule (block : List Nat) : List Nat := (extendW 48 block.reverse).reverse

/-- The eight SHA-256 working variables. -/
structure Hash8 where
  a : Nat
  b : Nat
  c : Nat
  d : Nat
  e : Nat
  f : Nat
  g : Nat
  h : Nat

/-- One SHA-256 round, fed one (round constant, schedule word) pair. -/
def compressStep (s : Hash8) (kw : Nat × Nat) : Hash8 :=
  let ch := (s.e &&& s.f) ^^^ ((s.e ^^^ 0xffffffff) &&& s.g)
  let maj := (s.a &&& s.b) ^^^ (s.a &&& s.c) ^^^ (s.b &&& s.c)
  let t1 := w32 (s.h + bsig1 s.e + ch + kw.1 + kw.2)
  let t2 := w32 (bsig0 s.a + maj)
  ⟨w32 (t1 + t2), s.a, s.b, s.c, w32 (s.d + t1), s.e, s.f, s.g⟩

/-- Compression of one 16-word block into the running hash (eight words). -/
def compressBlock (hs : List Nat) (block : List Nat) : List Nat :=
  let ws := messageSchedule block
  let s0 : Hash8 :=
    ⟨hs.getD 0 0, hs.getD 1 0, hs.getD 2 0, hs.getD 3 0, hs.getD 4 0, hs.getD 5 0,
      hs.getD 6 0, hs.getD 7 0⟩
  let s := (sha256K.zip ws).foldl compressStep s0
  [w32 (hs.getD 0 0 + s.a), w32 (hs.getD 1 0 + s.b), w32 (hs.getD 2 0 + s.c),
   w32 (hs.getD 3 0 + s.d), w32 (hs.getD 4 0 + s.e), w32 (hs.getD 5 0 + s.f),
   w32 (hs.getD 6 0 + s.g), w32 (hs.getD 7 0 + s.h)]

/-- Split a byte list into 64-byte chunks (fuelled by the list length). -/
def chunks64 : Nat → List Nat → List (List Nat)
  | 0, _ => []
  | _ + 1, [] => []
  | fuel + 1, l => l.take 64 :: chunks64 fuel (l.drop 64)

/-- SHA-256 of a byte sequence. -/
def sha256 (msg : List Nat) : List Nat :=
  let padded := sha256Pad msg
  let hs := (chunks64 padded.length padded).foldl
    (fun acc b => compressBlock acc (bytesToWords b)) sha256H0
  (hs.map (fun w => beBytes 4 w)).flatten

/-- HMAC-SHA-256 (RFC 2104), the algorithm behind
`crypto.subtle.sign("HMAC", key, data)` with a SHA-256 key. -/
def hmacSha256 (key msg : List Nat) : List Nat :=
  let k0 := if 64 < key.length then sha256 key else key
  let kp := k0 ++ List.replicate (64 - k0.length) 0
  sha256 ((kp.map (fun b => b ^^^ 0x5c)) ++ sha256 ((kp.map (fun b => b ^^^ 0x36)) ++ msg))

/-- The byte value of the lowercase hex digit for `n < 16`;
`b.toString(16).padStart(2, "0")` uses lowercase digits. -/
def hexLowerChar (n : Nat) : Char := Char.ofNat (if n < 10 then 0x30 + n else 0x57 + n)

/-- Lowercase hex encoding of a byte sequence, two digits per byte. -/
def bytesToHex (l : List Nat) : String :=
  ⟨(l.map (fun b => [hexLowerChar (b / 16), hexLowerChar (b % 16)])).flatten⟩

/-- `signQueryString` from src/signature.ts: lowercase-hex HMAC-SHA-256 of the
UTF-8 bytes of the query string under the UTF-8 bytes of the secret key. -/
def signQueryString (queryString secretKey : String) : String :=
  bytesToHex (hmacSha256 (strBytes secretKey) (strBytes queryString))

/-! ## The API client (src/src/main.ts) -/

def API_BASE_URL : String := "https://api.screenshotone.com"

def API_TAKE_PATH : String := "/take"

def API_ANIMATE_PATH : String := "/animate"

/-- The API client; the constructor requires both keys non-empty. -/
structure Client where
  accessKey : String
  secretKey : String

/-- `Client.generateTakeURL`: snapshot the options, append the access key,
serialize, no signature. -/
def Client.generateTakeURL (c : Client) (o : TakeOptions) : String :=
  let query := appendParam o.toQuery "access_key" c.accessKey
  let queryString := serializeParams query
  API_BASE_URL ++ API_TAKE_PATH ++ "?" ++ queryString

/-- `Client.generateSignedTakeURL`: as the unsigned variant, then append
`&signature=` and the hex HMAC of the query string. -/
def Client.generateSignedTakeURL (c : Client) (o : TakeOptions) : String :=
  let query := appendParam o.toQuery "access_key" c.accessKey
  let queryString := serializeParams query
  let signature := signQueryString queryString c.secretKey
  API_BASE_URL ++ API_TAKE_PATH ++ "?" ++ (queryString ++ "&signature=" ++ signature)

/-- `Client.generateSignedAnimateURL`: the animate-path signed URL. -/
def Client.generateSignedAnimateURL (c : Client) (o : AnimateOptions) : String :=
  let query := appendParam o.toQuery "access_key" c.accessKey
  let queryString := serializeParams query
  let signature := signQueryString queryString c.secretKey
  API_BASE_URL ++ API_ANIMATE_PATH ++ "?" ++ (queryString ++ "&signature=" ++ signature)

/-! ## Geolocation formatting
(`new Big(x).toFixed(20).replace(/0+$/, "")` in both option classes) -/

/-- A finite decimal number `mantissa / 10 ^ scale`: the exact value a JS
number contributes to the `Big` constructor (big.js parses the number's
decimal string representation). -/
structure JSDecimal where
  mantissa : Int
  scale : Nat

/-- The decimal digits of a natural number, fuelled (one digit per step, so
`n + 1` steps always suffice). -/
def natDigitsAux : Nat → Nat → List Char
  | 0, _ => []
  | fuel + 1, n =>
    if n < 10 then [Char.ofNat (0x30 + n)]
    else natDigitsAux fuel (n / 10) ++ [Char.ofNat (0x30 + n % 10)]

/-- The decimal digits of a natural number. -/
def natStr (n : Nat) : List Char := natDigitsAux (n + 1) n

/-- Modelled from big.js: `Big(d).toFixed(20)` — sign, integer digits, `.`,
and exactly twenty fraction digits, rounding half away from zero (big.js
default `ROUND_HALF_UP`); exact whenever `scale ≤ 20`. -/
def toFixed20 (d : JSDecimal) : String :=
  let a := d.mantissa.natAbs
  let n := (2 * a * 10 ^ 20 + 10 ^ d.scale) / (2 * 10 ^ d.scale)
  let frac := natStr (n % 10 ^ 20)
  (if d.mantissa < 0 then "-" else "") ++ ⟨natStr (n / 10 ^ 20)⟩ ++ "." ++
    ⟨List.replicate (20 - frac.length) '0' ++ frac⟩

/-- JS `s.replace(/0+$/, "")`: removes the trailing run of `'0'` characters
(the regex is anchored at the end, so the first and only match is that run). -/
def stripTrailingZeros (s : String) : String :=
  ⟨(s.data.reverse.dropWhile (fun c => c = '0')).reverse⟩

/-- The serialized geolocation coordinate:
`new Big(x).toFixed(20).replace(/0+$/, "")`. -/
def geoFormat (d : JSDecimal) : String := stripTrailingZeros (toFixed20 d)

def TakeOptions.geolocationLatitude (o : TakeOptions) (lat : JSDecimal) : TakeOptions :=
  o.put "geolocation_latitude" [geoFormat lat]

def TakeOptions.geolocationLongitude (o : TakeOptions) (lng : JSDecimal) : TakeOptions :=
  o.put "geolocation_longitude" [geoFormat lng]

def AnimateOptions.geolocationLatitude (o : AnimateOptions) (lat : JSDecimal) :
    AnimateOptions :=
  o.put "geolocation_latitude" [geoFormat lat]

def AnimateOptions.geolocationLongitude (o : AnimateOptions) (lng : JSDecimal) :
    AnimateOptions :=
  o.put "geolocation_longitude" [geoFormat lng]

/-! ## The error path of `Client.animate` (src/src/main.ts, src/src/errors.ts) -/

/-- A parsed JSON error body; `message` is the property the template literal
in `Client.animate` reads (`data?.message`), which the API error shape does
not populate. -/
structure JsonBody where
  error_code : Option String
  error_message : Option String
  documentation_url : Option String
  message : Option String
deriving DecidableEq

/-- The slice of a fetch response the error path inspects: `ok`, `status`,
`statusText`, and the result of `response.json()` (`none` when the body is
not parseable JSON, so that `json()` rejects). -/
structure HttpResponse where
  ok : Bool
  status : Nat
  statusText : String
  body : Option JsonBody

/-- A thrown JS error value: either the `APIError` of src/src/errors.ts
(message plus the four optional structured fields) or a plain `Error`. -/
inductive JsError where
  | apiError (message : String) (httpStatusCode : Option Nat) (errorCode : Option String)
      (errorMessage : Option String) (documentationUrl : Option String)
  | genericError (message : String)
deriving DecidableEq

/-- Is the error an instance of `APIError`? -/
def JsError.isAPIError : JsError → Bool
  | .apiError .. => true
  | .genericError _ => false

/-- JS string interpolation of `data?.message` (prints `undefined` when the
property is absent). -/
def undefinedStr (o : Option String) : String := o.getD "undefined"

/-- The `try` block of `Client.animate`'s failure branch: `response.json()`
rejects when the body is unparseable, and on success the block itself throws
a plain `Error` interpolating `data?.message` — so the block always raises. -/
def animateTryBlock (r : HttpResponse) : Except JsError Unit :=
  match r.body with
  | none => Except.error (JsError.genericError "SyntaxError: unexpected end of JSON input")
  | some data =>
    Except.error (JsError.genericError
      ("failed to generate animation, response returned " ++ toString r.status ++ " " ++
        r.statusText ++ ": " ++ undefinedStr data.message))

/-- What `Client.animate` does once the response arrived: an ok response
yields the blob; otherwise the `try`/`catch` runs, and since every exception
of the try block (including its own `throw`) lands in the `catch` clause, the
method always throws the catch clause's plain `Error`. -/
inductive AnimateResult where
  | blob
  | thrown (e : JsError)
deriving DecidableEq

/-- The outcome of `Client.animate` as a function of the transport's
response. -/
def Client.animateResult (r : HttpResponse) : AnimateResult :=
  if r.ok then AnimateResult.blob
  else
    match animateTryBlock r with
    | Except.error _ =>
      AnimateResult.thrown (JsError.genericError
        ("failed to generate animation, response returned " ++ toString r.status ++ " " ++
          r.statusText))
    | Except.ok _ => AnimateResult.blob

/-! ## Object identity of `URLSearchParams` (for the snapshot semantics of
`toQuery`): a small heap of parameter lists, references are indices. -/

/-- The heap of live `URLSearchParams` objects. -/
abbrev Heap := List Params

/-- The contents of the object behind a reference. -/
def readRef (h : Heap) (r : Nat) : Params := h.getD r []

/-- Mutate the object behind a reference. -/
def writeRef (h : Heap) (r : Nat) (q : Params) : Heap := h.set r q

/-- Allocate a fresh object. -/
def allocRef (h : Heap) (q : Params) : Heap × Nat := (h ++ [q], h.length)

/-- `TakeOptions.toQuery` as a heap operation: allocate a fresh
`URLSearchParams` parsed from the serialization of the receiver's private
one (`new URLSearchParams(this.query.toString())`). -/
def toQueryRef (h : Heap) (r : Nat) : Heap × Nat :=
  allocRef h (parseParams (serializeParams (readRef h r)))

/-- `query.append(k, v)` as a heap operation. -/
def appendRef (h : Heap) (r : Nat) (k v : String) : Heap :=
  writeRef h r (appendParam (readRef h r) k v)

/-- `Client.generateTakeURL` as a heap computation: snapshot the options
object `r`, append the access key to the snapshot, serialize the snapshot. -/
def generateTakeURLRef (c : Client) (h : Heap) (r : Nat) : Heap × String :=
  let hq := toQueryRef h r
  let h2 := appendRef hq.1 hq.2 "access_key" c.accessKey
  (h2, API_BASE_URL ++ API_TAKE_PATH ++ "?" ++ serializeParams (readRef h2 hq.2))

/-! ## Setter call sequences (for ordering statements) -/

/-- One setter invocation, reduced to what it does: the key it owns and the
serialized values it passes to `put`. -/
abbrev SetterCall := String × List String

/-- Run a sequence of setter invocations on a take-options object. -/
def TakeOptions.applyCalls (o : TakeOptions) (calls : List SetterCall) : TakeOptions :=
  calls.foldl (fun acc c => acc.put c.1 c.2) o

/-- Run a sequence of setter invocations on an animate-options object. -/
def AnimateOptions.applyCalls (o : AnimateOptions) (calls : List SetterCall) :
    AnimateOptions :=
  calls.foldl (fun acc c => acc.put c.1 c.2) o

/-- The (key, value) pairs a sequence of setter invocations announces, in
invocation order. -/
def callPairs (calls : List SetterCall) : Params :=
  (calls.map (fun c => c.2.map (fun v => (c.1, v)))).flatten

/-! ## Character and byte lemmas -/

theorem toNat_ofNat_valid {n : Nat} (h : n.isValidChar) : (Char.ofNat n).toNat = n := by
  rw [Char.ofNat, dif_pos h]
  rfl

theorem toNat_ofNat_small {n : Nat} (h : n < 0xD800) : (Char.ofNat n).toNat = n :=
  toNat_ofNat_valid (Or.inl h)

theorem ofNat_ne_char {x : Nat} (hx : x < 0xD800) {c : Char} (h : x ≠ c.toNat) :
    Char.ofNat x ≠ c := by
  intro he
  apply h
  rw [← toNat_ofNat_small hx, he]

/-! ## `removeParam` / `setParam` / `putParams` lemmas -/

theorem removeParam_idem (q : Params) (k : String) :
    removeParam (removeParam q k) k = removeParam q k := by
  induction q with
  | nil => rfl
  | cons p rest ih =>
    by_cases h : p.1 = k
    · simp [removeParam, h, ih]
    · simp [removeParam, h, ih]

theorem getAll_removeParam (q : Params) (k : String) : getAll (removeParam q k) k = [] := by
  induction q with
  | nil => rfl
  | cons p rest ih =>
    by_cases h : p.1 = k
    · simp [removeParam, h, ih]
    · simp [removeParam, getAll, h] at ih ⊢
      exact ih

theorem setParam_of_not_mem (q : Params) (k v : String) (h : k ∉ q.map Prod.fst) :
    setParam q k v = q ++ [(k, v)] := by
  induction q with
  | nil => rfl
  | cons p rest ih =>
    simp only [List.map_cons, List.mem_cons] at h
    push_neg at h
    have hp : ¬p.1 = k := fun e => h.1 e.symm
    simp [setParam, hp, ih h.2]

theorem getAll_setParam_self (q : Params) (k v : String) :
    getAll (setParam q k v) k = [v] := by
  induction q with
  | nil => simp [setParam, getAll]
  | cons p rest ih =>
    by_cases h : p.1 = k
    · simp [setParam, h, getAll, getAll_removeParam rest k]
      have := getAll_removeParam rest k
      simpa [getAll] using this
    · simp [setParam, h, getAll] at ih ⊢
      exact ih

theorem setParam_idem (q : Params) (k v : String) :
    setParam (setParam q k v) k v = setParam q k v := by
  induction q with
  | nil => simp [setParam, removeParam]
  | cons p rest ih =>
    by_cases h : p.1 = k
    · simp [setParam, h, removeParam_idem]
    · simp [setParam, h, ih]

theorem foldl_appendParam (k : String) :
    ∀ (vs : List String) (q : Params),
      vs.foldl (fun acc v => appendParam acc k v) q = q ++ vs.map (fun v => (k, v)) := by
  intro vs
  induction vs with
  | nil => intro q; simp
  | cons v rest ih =>
    intro q
    simp only [List.foldl_cons, List.map_cons]
    rw [ih]
    simp [appendParam]

theorem putParams_nil (q : Params) (k : String) : putParams q k [] = q := rfl

theorem putParams_singleton (q : Params) (k v : String) :
    putParams q k [v] = setParam q k v := by
  simp [putParams]

theorem putParams_of_two_le (q : Params) (k : String) (vs : List String)
    (h : 2 ≤ vs.length) : putParams q k vs = q ++ vs.map (fun v => (k, v)) := by
  have hne : ¬vs.length = 1 := by omega
  unfold putParams
  simp only [if_neg hne]
  exact foldl_appendParam k vs q

theorem putParams_of_not_mem (q : Params) (k : String) (vs : List String)
    (h : k ∉ q.map Prod.fst) : putParams q k vs = q ++ vs.map (fun v => (k, v)) := by
  match vs with
  | [] => simp [putParams_nil]
  | [v] => rw [putParams_singleton, setParam_of_not_mem _ _ _ h]; simp
  | v1 :: v2 :: rest =>
    exact putParams_of_two_le _ _ _ (by simp only [List.length_cons]; omega)

theorem getAll_append (q r : Params) (k : String) :
    getAll (q ++ r) k = getAll q k ++ getAll r k := by
  simp [getAll, List.filter_append]

/-! ## UTF-8 round-trip -/

theorem char_toNat_valid (c : Char) : c.toNat.isValidChar := c.valid

theorem char_toNat_lt (c : Char) : c.toNat < 0x110000 := by
  rcases char_toNat_valid c with h | h <;> omega

theorem utf8DecodeAux_step1 (f b0 : Nat) (rest : List Nat) (h : b0 < 0x80) :
    utf8DecodeAux (f + 1) (b0 :: rest) = Char.ofNat b0 :: utf8DecodeAux f rest := by
  rw [utf8DecodeAux.eq_def]
  dsimp only
  rw [if_pos h]

theorem utf8DecodeAux_step2 (f b0 b1 : Nat) (rest : List Nat) (h1 : 0xC0 ≤ b0)
    (h2 : b0 < 0xE0) (hc : 0x80 ≤ b1 ∧ b1 < 0xC0) :
    utf8DecodeAux (f + 1) (b0 :: b1 :: rest) =
      Char.ofNat ((b0 - 0xC0) * 0x40 + (b1 - 0x80)) :: utf8DecodeAux f rest := by
  rw [utf8DecodeAux.eq_def]
  dsimp only
  rw [if_neg (by omega), if_neg (by omega), if_pos h2]
  have : contByte b1 = true := by simp [contByte]; omega
  simp only [this, if_pos]

theorem utf8DecodeAux_step3 (f b0 b1 b2 : Nat) (rest : List Nat) (h1 : 0xE0 ≤ b0)
    (h2 : b0 < 0xF0) (hc1 : 0x80 ≤ b1 ∧ b1 < 0xC0) (hc2 : 0x80 ≤ b2 ∧ b2 < 0xC0) :
    utf8DecodeAux (f + 1) (b0 :: b1 :: b2 :: rest) =
      Char.ofNat ((b0 - 0xE0) * 0x1000 + (b1 - 0x80) * 0x40 + (b2 - 0x80)) ::
        utf8DecodeAux f rest := by
  rw [utf8DecodeAux.eq_def]
  dsimp only
  rw [if_neg (by omega), if_neg (by omega), if_neg (by omega), if_pos h2]
  have e1 : contByte b1 = true := by simp [contByte]; omega
  have e2 : contByte b2 = true := by simp [contByte]; omega
  simp only [e1, e2, Bool.and_self, if_pos]

theorem utf8DecodeAux_step4 (f b0 b1 b2 b3 : Nat) (rest : List Nat) (h1 : 0xF0 ≤ b0)
    (hc1 : 0x80 ≤ b1 ∧ b1 < 0xC0) (hc2 : 0x80 ≤ b2 ∧ b2 < 0xC0)
    (hc3 : 0x80 ≤ b3 ∧ b3 < 0xC0) :
    utf8DecodeAux (f + 1) (b0 :: b1 :: b2 :: b3 :: rest) =
      Char.ofNat
          ((b0 - 0xF0) * 0x40000 + (b1 - 0x80) * 0x1000 + (b2 - 0x80) * 0x40 + (b3 - 0x80)) ::
        utf8DecodeAux f rest := by
  rw [utf8DecodeAux.eq_def]
  dsimp only
  rw [if_neg (by omega), if_neg (by omega), if_neg (by omega), if_neg (by omega)]
  have e1 : contByte b1 = true := by simp [contByte]; omega
  have e2 : contByte b2 = true := by simp [contByte]; omega
  have e3 : contByte b3 = true := by simp [contByte]; omega
  simp only [e1, e2, e3, Bool.and_self, if_pos]

theorem utf8DecodeAux_nil (fuel : Nat) : utf8DecodeAux fuel [] = [] := by
  cases fuel <;> rfl

theorem utf8Bytes_length_pos (n : Nat) : 0 < (utf8Bytes n).length := by
  unfold utf8Bytes
  split
  · simp
  · split
    · simp
    · split <;> simp

theorem utf8DecodeAux_encode :
    ∀ (cs : List Char) (fuel : Nat),
      ((cs.map (fun c => utf8Bytes c.toNat)).flatten).length ≤ fuel →
      utf8DecodeAux fuel ((cs.map (fun c => utf8Bytes c.toNat)).flatten) = cs := by
  intro cs
  induction cs with
  | nil => intro fuel _; simpa using utf8DecodeAux_nil fuel
  | cons c cs ih =>
    intro fuel hlen
    simp only [List.map_cons, List.flatten_cons] at hlen ⊢
    have hv : c.toNat < 0x110000 := char_toNat_lt c
    have hpos : 0 < (utf8Bytes c.toNat).length := utf8Bytes_length_pos c.toNat
    rw [List.length_append] at hlen
    obtain ⟨f, rfl⟩ : ∃ f, fuel = f + 1 := ⟨fuel - 1, by omega⟩
    have hrest : ((cs.map (fun c => utf8Bytes c.toNat)).flatten).length ≤ f := by
      have := hpos; omega
    by_cases h1 : c.toNat < 0x80
    · rw [utf8Bytes, if_pos h1, List.cons_append, List.nil_append,
        utf8DecodeAux_step1 _ _ _ h1, Char.ofNat_toNat, ih f hrest]
    · by_cases h2 : c.toNat < 0x800
      · rw [utf8Bytes, if_neg h1, if_pos h2]
        simp only [List.cons_append, List.nil_append]
        rw [utf8DecodeAux_step2 _ _ _ _ (by omega) (by omega) (by omega)]
        have hval : (0xC0 + c.toNat / 0x40 - 0xC0) * 0x40 + (0x80 + c.toNat % 0x40 - 0x80) =
            c.toNat := by omega
        rw [hval, Char.ofNat_toNat, ih f hrest]
      · by_cases h3 : c.toNat < 0x10000
        · rw [utf8Bytes, if_neg h1, if_neg h2, if_pos h3]
          simp only [List.cons_append, List.nil_append]
          rw [utf8DecodeAux_step3 _ _ _ _ _ (by omega) (by omega) (by omega) (by omega)]
          have hval : (0xE0 + c.toNat / 0x1000 - 0xE0) * 0x1000 +
              (0x80 + c.toNat / 0x40 % 0x40 - 0x80) * 0x40 + (0x80 + c.toNat % 0x40 - 0x80) =
              c.toNat := by omega
          rw [hval, Char.ofNat_toNat, ih f hrest]
        · rw [utf8Bytes, if_neg h1, if_neg h2, if_neg h3]
          simp only [List.cons_append, List.nil_append]
          rw [utf8DecodeAux_step4 _ _ _ _ _ _ (by omega) (by omega) (by omega) (by omega)]
          have hval : (0xF0 + c.toNat / 0x40000 - 0xF0) * 0x40000 +
              (0x80 + c.toNat / 0x1000 % 0x40 - 0x80) * 0x1000 +
              (0x80 + c.toNat / 0x40 % 0x40 - 0x80) * 0x40 + (0x80 + c.toNat % 0x40 - 0x80) =
              c.toNat := by omega
          rw [hval, Char.ofNat_toNat, ih f hrest]

theorem utf8Decode_strBytes (s : String) : utf8Decode (strBytes s) = s.data :=
  utf8DecodeAux_encode s.data _ (Nat.le_refl _)

/-! ## Percent-encoding round-trip -/

theorem utf8Bytes_lt_256 {n : Nat} (hn : n < 0x110000) : ∀ b ∈ utf8Bytes n, b < 256 := by
  intro b hb
  unfold utf8Bytes at hb
  by_cases h1 : n < 0x80
  · simp [h1] at hb; omega
  · by_cases h2 : n < 0x800
    · simp [h1, h2] at hb
      rcases hb with rfl | rfl <;> omega
    · by_cases h3 : n < 0x10000
      · simp [h1, h2, h3] at hb
        rcases hb with rfl | rfl | rfl <;> omega
      · simp [h1, h2, h3] at hb
        rcases hb with rfl | rfl | rfl | rfl <;> omega

theorem strBytes_lt_256 (s : String) : ∀ b ∈ strBytes s, b < 256 := by
  intro b hb
  unfold strBytes at hb
  rw [List.mem_flatten] at hb
  obtain ⟨l, hl, hbl⟩ := hb
  rw [List.mem_map] at hl
  obtain ⟨c, _, rfl⟩ := hl
  exact utf8Bytes_lt_256 (char_toNat_lt c) b hbl

theorem isUnreservedByte_facts {b : Nat} (h : isUnreservedByte b = true) :
    b ≤ 0x7A ∧ b ≠ 0x20 ∧ b ≠ 0x25 ∧ b ≠ 0x26 ∧ b ≠ 0x2B ∧ b ≠ 0x3D := by
  unfold isUnreservedByte at h
  rw [decide_eq_true_eq] at h
  omega

theorem hexUpperByte_range {n : Nat} (h : n < 16) :
    (0x30 ≤ hexUpperByte n ∧ hexUpperByte n ≤ 0x39) ∨
      (0x41 ≤ hexUpperByte n ∧ hexUpperByte n ≤ 0x46) := by
  unfold hexUpperByte
  split <;> omega

theorem hexVal_hexUpperByte {n : Nat} (h : n < 16) : hexVal (hexUpperByte n) = some n := by
  unfold hexVal hexUpperByte
  by_cases h10 : n < 10
  · rw [if_pos h10, if_pos (by omega)]
    simp only [Option.some.injEq]
    omega
  · rw [if_neg h10, if_neg (by omega), if_pos (by omega)]
    simp only [Option.some.injEq]
    omega

theorem encByte_mem_facts {b x : Nat} (hb : b < 256) (hx : x ∈ encByte b) :
    x < 0x80 ∧ x ≠ 0x26 ∧ x ≠ 0x3D := by
  unfold encByte at hx
  by_cases h20 : b == 0x20
  · simp [h20] at hx
    subst hx
    exact ⟨by omega, by omega, by omega⟩
  · rw [if_neg (by simpa using h20)] at hx
    by_cases hu : isUnreservedByte b
    · rw [if_pos hu] at hx
      simp at hx
      subst hx
      have := isUnreservedByte_facts hu
      exact ⟨by omega, by omega, by omega⟩
    · rw [if_neg hu] at hx
      simp at hx
      rcases hx with rfl | rfl | rfl
      · exact ⟨by omega, by omega, by omega⟩
      · have := hexUpperByte_range (n := b / 16) (by omega)
        exact ⟨by omega, by omega, by omega⟩
      · have := hexUpperByte_range (n := b % 16) (by omega)
        exact ⟨by omega, by omega, by omega⟩

theorem encByte_space : encByte 0x20 = [0x2B] := rfl

theorem encByte_unres {b : Nat} (hu : isUnreservedByte b = true) : encByte b = [b] := by
  have hfacts := isUnreservedByte_facts hu
  unfold encByte
  rw [if_neg (by simpa using hfacts.2.1), if_pos hu]

theorem encByte_esc {b : Nat} (h20 : ¬b = 0x20) (hu : ¬isUnreservedByte b = true) :
    encByte b = [0x25, hexUpperByte (b / 16), hexUpperByte (b % 16)] := by
  unfold encByte
  rw [if_neg (by simpa using h20), if_neg hu]

theorem percentDecodeAux_nil (fuel : Nat) : percentDecodeAux fuel [] = [] := by
  cases fuel <;> rfl

theorem percentDecodeAux_lit (f b : Nat) (rest : List Nat) (h : ¬b = 0x25) :
    percentDecodeAux (f + 1) (b :: rest) = b :: percentDecodeAux f rest := by
  rw [percentDecodeAux.eq_def]
  dsimp only
  rw [if_neg h]

theorem percentDecodeAux_pct (f h1 h2 x y : Nat) (rest : List Nat)
    (hx : hexVal h1 = some x) (hy : hexVal h2 = some y) :
    percentDecodeAux (f + 1) (0x25 :: h1 :: h2 :: rest) =
      (16 * x + y) :: percentDecodeAux f rest := by
  rw [percentDecodeAux.eq_def]
  dsimp only
  rw [if_pos rfl, hx, hy]

theorem percent_roundtrip :
    ∀ (bs : List Nat) (fuel : Nat), (∀ b ∈ bs, b < 256) →
      (((bs.map encByte).flatten).map (fun b => if b = 0x2B then 0x20 else b)).length ≤ fuel →
      percentDecodeAux fuel
          (((bs.map encByte).flatten).map (fun b => if b = 0x2B then 0x20 else b)) = bs := by
  intro bs
  induction bs with
  | nil => intro fuel _ _; simpa using percentDecodeAux_nil fuel
  | cons b bs ih =>
    intro fuel hlt hlen
    have hb : b < 256 := hlt b (List.mem_cons_self _ _)
    have hbs : ∀ x ∈ bs, x < 256 := fun x hx => hlt x (List.mem_cons_of_mem _ hx)
    rw [List.map_cons, List.flatten_cons, List.map_append] at hlen ⊢
    by_cases h20 : b = 0x20
    · subst h20
      rw [encByte_space] at hlen ⊢
      rw [show (([0x2B] : List Nat).map (fun x => if x = 0x2B then 0x20 else x)) = [0x20]
        from rfl] at hlen ⊢
      rw [List.singleton_append] at hlen ⊢
      rw [List.length_cons] at hlen
      obtain ⟨f, rfl⟩ : ∃ f, fuel = f + 1 := ⟨fuel - 1, by omega⟩
      rw [percentDecodeAux_lit _ _ _ (by omega), ih f hbs (by omega)]
    · by_cases hu : isUnreservedByte b
      · have hfacts := isUnreservedByte_facts hu
        have hmap : ([b] : List Nat).map (fun x => if x = 0x2B then 0x20 else x) = [b] := by
          simp only [List.map_cons, List.map_nil, if_neg hfacts.2.2.2.2.1]
        rw [encByte_unres hu] at hlen ⊢
        rw [hmap] at hlen ⊢
        rw [List.singleton_append] at hlen ⊢
        rw [List.length_cons] at hlen
        obtain ⟨f, rfl⟩ : ∃ f, fuel = f + 1 := ⟨fuel - 1, by omega⟩
        rw [percentDecodeAux_lit _ _ _ hfacts.2.2.1, ih f hbs (by omega)]
      · have hd1 : ¬hexUpperByte (b / 16) = 0x2B := by
          have := hexUpperByte_range (n := b / 16) (by omega); omega
        have hd2 : ¬hexUpperByte (b % 16) = 0x2B := by
          have := hexUpperByte_range (n := b % 16) (by omega); omega
        have hmap : ([0x25, hexUpperByte (b / 16), hexUpperByte (b % 16)] : List Nat).map
            (fun x => if x = 0x2B then 0x20 else x) =
            [0x25, hexUpperByte (b / 16), hexUpperByte (b % 16)] := by
          simp only [List.map_cons, List.map_nil, if_neg hd1, if_neg hd2,
            if_neg (by omega : ¬(0x25 : Nat) = 0x2B)]
        rw [encByte_esc h20 hu] at hlen ⊢
        rw [hmap] at hlen ⊢
        rw [List.cons_append, List.cons_append, List.cons_append, List.nil_append] at hlen ⊢
        rw [List.length_cons, List.length_cons, List.length_cons] at hlen
        obtain ⟨f, rfl⟩ : ∃ f, fuel = f + 3 := ⟨fuel - 3, by omega⟩
        rw [show f + 3 = (f + 2) + 1 from rfl,
          percentDecodeAux_pct (f + 2) _ _ (b / 16) (b % 16) _
            (hexVal_hexUpperByte (by omega)) (hexVal_hexUpperByte (by omega))]
        rw [show 16 * (b / 16) + b % 16 = b from by omega, ih (f + 2) hbs (by omega)]

/-! ## Round-trip of a full component and of the whole query string -/

theorem map_toNat_formEncodeChars (s : String) :
    (formEncodeChars s).map Char.toNat = ((strBytes s).map encByte).flatten := by
  unfold formEncodeChars
  rw [List.map_map]
  conv_rhs => rw [← List.map_id (((strBytes s).map encByte).flatten)]
  apply List.map_congr_left
  intro x hx
  rw [List.mem_flatten] at hx
  obtain ⟨l, hl, hxl⟩ := hx
  rw [List.mem_map] at hl
  obtain ⟨b, hbmem, rfl⟩ := hl
  have hf := encByte_mem_facts (strBytes_lt_256 s b hbmem) hxl
  exact toNat_ofNat_small (by omega)

theorem decodeComp_encode (s : String) : decodeComp (formEncodeChars s) = s := by
  unfold decodeComp percentDecode
  rw [map_toNat_formEncodeChars]
  rw [percent_roundtrip (strBytes s) _ (strBytes_lt_256 s) (Nat.le_refl _)]
  rw [utf8Decode_strBytes]

theorem formEncodeChars_ne (s : String) :
    ∀ c ∈ formEncodeChars s, ¬c = '&' ∧ ¬c = '=' := by
  intro c hc
  unfold formEncodeChars at hc
  rw [List.mem_map] at hc
  obtain ⟨x, hxmem, rfl⟩ := hc
  rw [List.mem_flatten] at hxmem
  obtain ⟨l, hl, hxl⟩ := hxmem
  rw [List.mem_map] at hl
  obtain ⟨b, hbmem, rfl⟩ := hl
  have hf := encByte_mem_facts (strBytes_lt_256 s b hbmem) hxl
  constructor
  · exact ofNat_ne_char (by omega) (by rw [show ('&').toNat = 0x26 from rfl]; exact hf.2.1)
  · exact ofNat_ne_char (by omega) (by rw [show ('=').toNat = 0x3D from rfl]; exact hf.2.2)

theorem takeWhile_encoded (ek ev : List Char) (h : ∀ c ∈ ek, ¬c = '=') :
    ((ek ++ '=' :: ev).takeWhile (fun c => ¬c = '=')) = ek := by
  induction ek with
  | nil => simp
  | cons c ek ih =>
    have hc : ¬c = '=' := h c (List.mem_cons_self _ _)
    have hcb : decide (¬c = '=') = true := decide_eq_true hc
    rw [List.cons_append, List.takeWhile_cons, if_pos hcb,
      ih (fun x hx => h x (List.mem_cons_of_mem _ hx))]

theorem dropWhile_encoded (ek ev : List Char) (h : ∀ c ∈ ek, ¬c = '=') :
    ((ek ++ '=' :: ev).dropWhile (fun c => ¬c = '=')) = '=' :: ev := by
  induction ek with
  | nil => simp
  | cons c ek ih =>
    have hc : ¬c = '=' := h c (List.mem_cons_self _ _)
    have hcb : decide (¬c = '=') = true := decide_eq_true hc
    rw [List.cons_append, List.dropWhile_cons, if_pos hcb]
    exact ih (fun x hx => h x (List.mem_cons_of_mem _ hx))

theorem data_mk (l : List Char) : (⟨l⟩ : String).data = l := rfl

/-- Parsing back the serialized query recovers the multi-map exactly: the
`toQuery` snapshot has the same content as the builder's private map. -/
theorem parse_serialize (q : Params) : parseParams (serializeParams q) = q := by
  cases q with
  | nil => rfl
  | cons p0 rest =>
    unfold parseParams serializeParams
    rw [data_mk]
    rw [List.splitOn_intercalate
      ((p0 :: rest).map (fun p => formEncodeChars p.1 ++ '=' :: formEncodeChars p.2)) '&'
      (by
        intro l hl
        rw [List.mem_map] at hl
        obtain ⟨p, _, rfl⟩ := hl
        intro hmem
        rw [List.mem_append, List.mem_cons] at hmem
        rcases hmem with h | h | h
        · exact (formEncodeChars_ne p.1 '&' h).1 rfl
        · exact absurd h (by decide)
        · exact (formEncodeChars_ne p.2 '&' h).1 rfl)
      (by simp)]
    rw [List.filter_eq_self.mpr
      (by
        intro a ha
        rw [List.mem_map] at ha
        obtain ⟨p, _, rfl⟩ := ha
        simp)]
    rw [List.map_map]
    conv_rhs => rw [← List.map_id (p0 :: rest)]
    apply List.map_congr_left
    intro p _
    have hek := fun c hc => (formEncodeChars_ne p.1 c hc).2
    simp only [Function.comp_apply, id_eq]
    rw [takeWhile_encoded _ _ hek, dropWhile_encoded _ _ hek]
    simp only [List.drop_succ_cons, List.drop_zero]
    rw [decodeComp_encode, decodeComp_encode]

theorem toQuery_eq (o : TakeOptions) : o.toQuery = o.query :=
  parse_serialize o.query

theorem animate_toQuery_eq (o : AnimateOptions) : o.toQuery = o.query :=
  parse_serialize o.query

/-! ## Call-sequence lemmas -/

theorem callPairs_cons (c : SetterCall) (calls : List SetterCall) :
    callPairs (c :: calls) = c.2.map (fun v => (c.1, v)) ++ callPairs calls := by
  simp [callPairs]

theorem foldl_putParams_calls :
    ∀ (calls : List SetterCall) (q : Params),
      calls.Pairwise (fun a b => a.1 ≠ b.1) →
      (∀ c ∈ calls, c.1 ∉ q.map Prod.fst) →
      calls.foldl (fun acc c => putParams acc c.1 c.2) q = q ++ callPairs calls := by
  intro calls
  induction calls with
  | nil => intro q _ _; simp [callPairs]
  | cons c calls ih =>
    intro q hpw hfresh
    rw [List.pairwise_cons] at hpw
    rw [List.foldl_cons, putParams_of_not_mem _ _ _ (hfresh c (List.mem_cons_self _ _))]
    rw [ih _ hpw.2
      (by
        intro c' hc'
        rw [List.map_append, List.mem_append]
        push_neg
        refine ⟨hfresh c' (List.mem_cons_of_mem _ hc'), ?_⟩
        intro hmem
        rw [List.map_map, List.mem_map] at hmem
        obtain ⟨v, _, hv⟩ := hmem
        exact hpw.1 c' hc' (by simpa using hv))]
    rw [callPairs_cons, List.append_assoc]

theorem takeOptions_applyCalls_query :
    ∀ (calls : List SetterCall) (o : TakeOptions),
      (o.applyCalls calls).query = calls.foldl (fun acc c => putParams acc c.1 c.2) o.query := by
  intro calls
  induction calls with
  | nil => intro o; rfl
  | cons c calls ih =>
    intro o
    rw [TakeOptions.applyCalls, List.foldl_cons, List.foldl_cons]
    exact ih ⟨putParams o.query c.1 c.2⟩

theorem animateOptions_applyCalls_query :
    ∀ (calls : List SetterCall) (o : AnimateOptions),
      (o.applyCalls calls).query = calls.foldl (fun acc c => putParams acc c.1 c.2) o.query := by
  intro calls
  induction calls with
  | nil => intro o; rfl
  | cons c calls ih =>
    intro o
    rw [AnimateOptions.applyCalls, List.foldl_cons, List.foldl_cons]
    exact ih ⟨putParams o.query c.1 c.2⟩

/-! ## Position of an overwritten key -/

theorem setParam_position (q : Params) (k v : String) :
    k ∈ q.map Prod.fst →
      (setParam q k v).findIdx (fun p => p.1 = k) = q.findIdx (fun p => p.1 = k) ∧
      (setParam q k v).take (q.findIdx (fun p => p.1 = k)) =
        q.take (q.findIdx (fun p => p.1 = k)) ∧
      (setParam q k v).getD (q.findIdx (fun p => p.1 = k)) ("", "") = (k, v) := by
  induction q with
  | nil => intro hmem; simp at hmem
  | cons p rest ih =>
    intro hmem
    by_cases hp : p.1 = k
    · have hfi : (p :: rest).findIdx (fun p => p.1 = k) = 0 := by
        rw [List.findIdx_cons]
        simp [hp]
      rw [setParam, if_pos hp, hfi]
      refine ⟨?_, rfl, rfl⟩
      rw [List.findIdx_cons]
      simp
    · have hkrest : k ∈ rest.map Prod.fst := by
        rw [List.map_cons, List.mem_cons] at hmem
        rcases hmem with h | h
        · exact absurd h.symm hp
        · exact h
      obtain ⟨ih1, ih2, ih3⟩ := ih hkrest
      have hfi : (p :: rest).findIdx (fun p => p.1 = k) =
          rest.findIdx (fun p => p.1 = k) + 1 := by
        rw [List.findIdx_cons]
        simp [hp]
      rw [setParam, if_neg hp, hfi]
      refine ⟨?_, ?_, ?_⟩
      · rw [List.findIdx_cons]
        simp only [hp, decide_False, cond_false]
        omega
      · rw [List.take_succ_cons, List.take_succ_cons, ih2]
      · rw [List.getD_cons_succ]
        exact ih3

/-! ## Heap lemmas for snapshot independence -/

theorem readRef_append_lt (h : Heap) (x : Params) {r : Nat} (hr : r < h.length) :
    readRef (h ++ [x]) r = readRef h r := by
  unfold readRef
  rw [List.getD_eq_getElem?_getD, List.getD_eq_getElem?_getD, List.getElem?_append_left hr]

theorem readRef_set_ne (h : Heap) (q : Params) {r s : Nat} (hne : s ≠ r) :
    readRef (writeRef h s q) r = readRef h r := by
  unfold readRef writeRef
  rw [List.getD_eq_getElem?_getD, List.getD_eq_getElem?_getD, List.getElem?_set_ne hne]

theorem readRef_set_self (h : Heap) (q : Params) {s : Nat} (hs : s < h.length) :
    readRef (writeRef h s q) s = q := by
  unfold readRef writeRef
  rw [List.getD_eq_getElem?_getD, List.getElem?_set_self hs]
  rfl

theorem toQueryRef_fst (h : Heap) (r : Nat) :
    (toQueryRef h r).1 = h ++ [parseParams (serializeParams (readRef h r))] := rfl

theorem toQueryRef_snd (h : Heap) (r : Nat) : (toQueryRef h r).2 = h.length := rfl

theorem generateTakeURLRef_heap (c : Client) (h : Heap) {r : Nat} (hr : r < h.length) :
    readRef (generateTakeURLRef c h r).1 r = readRef h r := by
  show readRef
      (appendRef (toQueryRef h r).1 (toQueryRef h r).2 "access_key" c.accessKey) r =
    readRef h r
  unfold appendRef
  rw [toQueryRef_snd, toQueryRef_fst]
  rw [readRef_set_ne _ _ (by omega), readRef_append_lt _ _ hr]

theorem readRef_concat_length (h : Heap) (x : Params) : readRef (h ++ [x]) h.length = x := by
  unfold readRef
  rw [List.getD_eq_getElem?_getD, List.getElem?_concat_length]
  rfl

theorem generateTakeURLRef_str (c : Client) (h : Heap) (r : Nat) :
    (generateTakeURLRef c h r).2 =
      API_BASE_URL ++ API_TAKE_PATH ++ "?" ++
        serializeParams
          (appendParam (parseParams (serializeParams (readRef h r))) "access_key"
            c.accessKey) := by
  show API_BASE_URL ++ API_TAKE_PATH ++ "?" ++
      serializeParams
        (readRef
          (appendRef (toQueryRef h r).1 (toQueryRef h r).2 "access_key" c.accessKey)
          (toQueryRef h r).2) = _
  unfold appendRef
  rw [toQueryRef_snd, toQueryRef_fst, readRef_concat_length, readRef_set_self _ _ (by simp)]

/-! ## Digit-string lemmas for geolocation formatting -/

theorem natDigitsAux_mem :
    ∀ (fuel n : Nat) (c : Char), c ∈ natDigitsAux fuel n →
      ∃ d, d ≤ 9 ∧ c = Char.ofNat (0x30 + d) := by
  intro fuel
  induction fuel with
  | zero => intro n c hc; simp [natDigitsAux] at hc
  | succ f ih =>
    intro n c hc
    rw [natDigitsAux] at hc
    by_cases h : n < 10
    · rw [if_pos h] at hc
      simp at hc
      exact ⟨n, by omega, hc⟩
    · rw [if_neg h] at hc
      rw [List.mem_append] at hc
      rcases hc with hc | hc
      · exact ih _ c hc
      · simp at hc
        exact ⟨n % 10, by omega, hc⟩

theorem dropWhile_head_not (p : Char → Bool) (l : List Char) :
    ∀ c, (l.dropWhile p).head? = some c → p c = false := by
  induction l with
  | nil => intro c hc; simp at hc
  | cons a l ih =>
    intro c hc
    rw [List.dropWhile_cons] at hc
    by_cases hp : p a
    · rw [if_pos hp] at hc
      exact ih c hc
    · rw [if_neg hp] at hc
      simp at hc
      rw [← hc]
      simpa using hp

theorem toFixed20_chars (d : JSDecimal) :
    ∀ c ∈ (toFixed20 d).data,
      ∃ n, (n = 0x2D ∨ n = 0x2E ∨ (0x30 ≤ n ∧ n ≤ 0x39)) ∧ c = Char.ofNat n := by
  intro c hc
  unfold toFixed20 at hc
  simp only [String.data_append, data_mk, List.mem_append] at hc
  rcases hc with ((hs | hd) | hdot) | hfrac
  · by_cases hneg : d.mantissa < 0
    · rw [if_pos hneg] at hs
      simp only [show ("-" : String).data = ['-'] from rfl, List.mem_singleton] at hs
      exact ⟨0x2D, by omega, by rw [hs]⟩
    · rw [if_neg hneg] at hs
      simp at hs
  · obtain ⟨k, hk, rfl⟩ := natDigitsAux_mem _ _ c hd
    exact ⟨0x30 + k, by omega, rfl⟩
  · simp only [show ("." : String).data = ['.'] from rfl, List.mem_singleton] at hdot
    exact ⟨0x2E, by omega, by rw [hdot]⟩
  · rcases hfrac with hz | hd
    · rw [List.mem_replicate] at hz
      exact ⟨0x30, by omega, by rw [hz.2]⟩
    · obtain ⟨k, hk, rfl⟩ := natDigitsAux_mem _ _ c hd
      exact ⟨0x30 + k, by omega, rfl⟩

theorem geoFormat_chars (d : JSDecimal) :
    ∀ c ∈ (geoFormat d).data,
      ∃ n, (n = 0x2D ∨ n = 0x2E ∨ (0x30 ≤ n ∧ n ≤ 0x39)) ∧ c = Char.ofNat n := by
  intro c hc
  unfold geoFormat stripTrailingZeros at hc
  rw [data_mk, List.mem_reverse] at hc
  have hsub : c ∈ (toFixed20 d).data.reverse := (List.dropWhile_sublist _).subset hc
  rw [List.mem_reverse] at hsub
  exact toFixed20_chars d c hsub

theorem geoFormat_no_exponential (d : JSDecimal) :
    ((geoFormat d).data.all (fun c => !(c == 'e') && !(c == 'E'))) = true := by
  rw [List.all_eq_true]
  intro c hc
  obtain ⟨n, hn, rfl⟩ := geoFormat_chars d c hc
  have h1 : Char.ofNat n ≠ 'e' :=
    ofNat_ne_char (by omega) (by rw [show ('e').toNat = 101 from rfl]; omega)
  have h2 : Char.ofNat n ≠ 'E' :=
    ofNat_ne_char (by omega) (by rw [show ('E').toNat = 69 from rfl]; omega)
  simp [h1, h2]

theorem geoFormat_no_trailing_zero (d : JSDecimal) :
    ((geoFormat d).data.getLast? == some '0') = false := by
  unfold geoFormat stripTrailingZeros
  rw [data_mk, List.getLast?_reverse]
  cases hh : ((toFixed20 d).data.reverse.dropWhile (fun c => c = '0')).head? with
  | none => rfl
  | some c =>
    have hnz := dropWhile_head_not _ _ c hh
    simp only [decide_eq_false_iff_not] at hnz
    simpa using hnz

/-! ## Claim theorems -/

/-- C1: for the client with access key `RcLsdM6uhIN6gw` and secret key
`MW2vfkkgLTzGGw`, and options `TakeOptions.url("https://example.com").blockAds(true)`,
`generateSignedTakeURL` returns exactly the known URL; its `signature`
parameter is the lowercase-hex HMAC-SHA-256 of the preceding query string
under the secret key. -/
theorem c1_known_answer_signature :
    Client.generateSignedTakeURL ⟨"RcLsdM6uhIN6gw", "MW2vfkkgLTzGGw"⟩
        ((TakeOptions.url "https://example.com").blockAds true) =
      "https://api.screenshotone.com/take?url=https%3A%2F%2Fexample.com&block_ads=true&access_key=RcLsdM6uhIN6gw&signature=3cf1edeafc139f41191928c1c5b8b04fe1d5722560244ccdd76a55d69120bbac" ∧
    "3cf1edeafc139f41191928c1c5b8b04fe1d5722560244ccdd76a55d69120bbac" =
      signQueryString "url=https%3A%2F%2Fexample.com&block_ads=true&access_key=RcLsdM6uhIN6gw"
        "MW2vfkkgLTzGGw" := by
  exact ⟨by decide, by decide⟩

/-- C2: for distinct-key setter sequences, the generated query lists the
parameters in invocation order, `access_key` immediately after the last
user-set parameter, and (for the signed variants on both options classes)
`signature` last of all. -/
theorem c2_parameter_order (ak sk : String) (calls : List SetterCall)
    (hdist : calls.Pairwise (fun a b => a.1 ≠ b.1)) :
    appendParam (TakeOptions.applyCalls ⟨[]⟩ calls).toQuery "access_key" ak =
        callPairs calls ++ [("access_key", ak)] ∧
    Client.generateTakeURL ⟨ak, sk⟩ (TakeOptions.applyCalls ⟨[]⟩ calls) =
        API_BASE_URL ++ API_TAKE_PATH ++ "?" ++
          serializeParams (callPairs calls ++ [("access_key", ak)]) ∧
    Client.generateSignedTakeURL ⟨ak, sk⟩ (TakeOptions.applyCalls ⟨[]⟩ calls) =
        API_BASE_URL ++ API_TAKE_PATH ++ "?" ++
          (serializeParams (callPairs calls ++ [("access_key", ak)]) ++ "&signature=" ++
            signQueryString (serializeParams (callPairs calls ++ [("access_key", ak)])) sk) ∧
    Client.generateSignedAnimateURL ⟨ak, sk⟩ (AnimateOptions.applyCalls ⟨[]⟩ calls) =
        API_BASE_URL ++ API_ANIMATE_PATH ++ "?" ++
          (serializeParams (callPairs calls ++ [("access_key", ak)]) ++ "&signature=" ++
            signQueryString (serializeParams (callPairs calls ++ [("access_key", ak)])) sk) := by
  have hto : (TakeOptions.applyCalls ⟨[]⟩ calls).toQuery = callPairs calls := by
    rw [toQuery_eq, takeOptions_applyCalls_query]
    simpa using foldl_putParams_calls calls [] hdist (by simp)
  have hato : (AnimateOptions.applyCalls ⟨[]⟩ calls).toQuery = callPairs calls := by
    rw [animate_toQuery_eq, animateOptions_applyCalls_query]
    simpa using foldl_putParams_calls calls [] hdist (by simp)
  refine ⟨?_, ?_, ?_, ?_⟩
  · rw [hto]; rfl
  · have h0 : Client.generateTakeURL ⟨ak, sk⟩ (TakeOptions.applyCalls ⟨[]⟩ calls) =
        API_BASE_URL ++ API_TAKE_PATH ++ "?" ++
          serializeParams
            (appendParam (TakeOptions.applyCalls ⟨[]⟩ calls).toQuery "access_key" ak) := rfl
    rw [h0, hto]; rfl
  · have h0 : Client.generateSignedTakeURL ⟨ak, sk⟩ (TakeOptions.applyCalls ⟨[]⟩ calls) =
        API_BASE_URL ++ API_TAKE_PATH ++ "?" ++
          (serializeParams
              (appendParam (TakeOptions.applyCalls ⟨[]⟩ calls).toQuery "access_key" ak) ++
            "&signature=" ++
            signQueryString
              (serializeParams
                (appendParam (TakeOptions.applyCalls ⟨[]⟩ calls).toQuery "access_key" ak))
              sk) := rfl
    rw [h0, hto]; rfl
  · have h0 : Client.generateSignedAnimateURL ⟨ak, sk⟩ (AnimateOptions.applyCalls ⟨[]⟩ calls) =
        API_BASE_URL ++ API_ANIMATE_PATH ++ "?" ++
          (serializeParams
              (appendParam (AnimateOptions.applyCalls ⟨[]⟩ calls).toQuery "access_key" ak) ++
            "&signature=" ++
            signQueryString
              (serializeParams
                (appendParam (AnimateOptions.applyCalls ⟨[]⟩ calls).toQuery "access_key" ak))
              sk) := rfl
    rw [h0, hato]; rfl

/-- Witness for C2 at a concrete call sequence. -/
theorem c2_parameter_order_witness :
    appendParam
        (TakeOptions.applyCalls ⟨[]⟩
          [("url", ["https://example.com"]), ("block_ads", ["true"])]).toQuery
        "access_key" "RcLsdM6uhIN6gw" =
      callPairs [("url", ["https://example.com"]), ("block_ads", ["true"])] ++
        [("access_key", "RcLsdM6uhIN6gw")] ∧
    Client.generateTakeURL ⟨"RcLsdM6uhIN6gw", "MW2vfkkgLTzGGw"⟩
        (TakeOptions.applyCalls ⟨[]⟩
          [("url", ["https://example.com"]), ("block_ads", ["true"])]) =
      API_BASE_URL ++ API_TAKE_PATH ++ "?" ++
        serializeParams
          (callPairs [("url", ["https://example.com"]), ("block_ads", ["true"])] ++
            [("access_key", "RcLsdM6uhIN6gw")]) ∧
    Client.generateSignedTakeURL ⟨"RcLsdM6uhIN6gw", "MW2vfkkgLTzGGw"⟩
        (TakeOptions.applyCalls ⟨[]⟩
          [("url", ["https://example.com"]), ("block_ads", ["true"])]) =
      API_BASE_URL ++ API_TAKE_PATH ++ "?" ++
        (serializeParams
            (callPairs [("url", ["https://example.com"]), ("block_ads", ["true"])] ++
              [("access_key", "RcLsdM6uhIN6gw")]) ++ "&signature=" ++
          signQueryString
            (serializeParams
              (callPairs [("url", ["https://example.com"]), ("block_ads", ["true"])] ++
                [("access_key", "RcLsdM6uhIN6gw")]))
            "MW2vfkkgLTzGGw") ∧
    Client.generateSignedAnimateURL ⟨"RcLsdM6uhIN6gw", "MW2vfkkgLTzGGw"⟩
        (AnimateOptions.applyCalls ⟨[]⟩
          [("url", ["https://example.com"]), ("block_ads", ["true"])]) =
      API_BASE_URL ++ API_ANIMATE_PATH ++ "?" ++
        (serializeParams
            (callPairs [("url", ["https://example.com"]), ("block_ads", ["true"])] ++
              [("access_key", "RcLsdM6uhIN6gw")]) ++ "&signature=" ++
          signQueryString
            (serializeParams
              (callPairs [("url", ["https://example.com"]), ("block_ads", ["true"])] ++
                [("access_key", "RcLsdM6uhIN6gw")]))
            "MW2vfkkgLTzGGw") :=
  c2_parameter_order "RcLsdM6uhIN6gw" "MW2vfkkgLTzGGw"
    [("url", ["https://example.com"]), ("block_ads", ["true"])] (by decide)

/-- C3 (the code contradicts the spec and its own test): on a non-2xx
response with a parseable structured error body, `Client.animate` throws a
plain generic `Error` — the inner `throw` that mentions the parsed data sits
inside the `try` block, so the `catch` clause replaces it — and never an
`APIError` carrying status 400, the error code and the documentation link. -/
theorem c3_animate_error_is_generic :
    Client.animateResult
        ⟨false, 400, "Bad Request",
          some
            ⟨some "name_not_resolved",
              some "Usually, the error happens when the domain name of the requested URL is not resolved.",
              some "https://screenshotone.com/docs/errors/", none⟩⟩ =
      AnimateResult.thrown
        (JsError.genericError
          "failed to generate animation, response returned 400 Bad Request") ∧
    (JsError.genericError
        "failed to generate animation, response returned 400 Bad Request").isAPIError =
      false := by
  exact ⟨by decide, rfl⟩

/-- C4 fails on the code: a second call to a variadic multi-value setter that
supplies exactly one value does not append — `put` calls
`URLSearchParams.set`, which erases the previously accumulated values. -/
theorem c4_multivalue_counterexample :
    getAll
        (((TakeOptions.url "https://example.com").hideSelectors ["a", "b"]).hideSelectors
            ["c"]).toQuery "hide_selectors" = ["c"] ∧
    "a" ∉
      getAll
        (((TakeOptions.url "https://example.com").hideSelectors ["a", "b"]).hideSelectors
            ["c"]).toQuery "hide_selectors" := by
  exact ⟨by decide, by decide⟩

/-- C4 as amended: a call to a variadic multi-value setter appends its values
in order after everything already accumulated only when it supplies at least
two values; a call supplying exactly one value overwrites, leaving that value
as the key's only occurrence. -/
theorem c4_multivalue_append_amended (q : Params) (k v : String) (vs : List String)
    (h : 2 ≤ vs.length) :
    putParams q k vs = q ++ vs.map (fun w => (k, w)) ∧
    getAll (putParams q k [v]) k = [v] ∧
    (TakeOptions.hideSelectors ⟨q⟩ vs).query = q ++ vs.map (fun w => ("hide_selectors", w)) ∧
    (AnimateOptions.hideSelectors ⟨q⟩ vs).query =
      q ++ vs.map (fun w => ("hide_selectors", w)) := by
  refine ⟨putParams_of_two_le q k vs h, ?_, ?_, ?_⟩
  · rw [putParams_singleton]
    exact getAll_setParam_self q k v
  · exact putParams_of_two_le q "hide_selectors" vs h
  · exact putParams_of_two_le q "hide_selectors" vs h

/-- Witness for the amended C4. -/
theorem c4_multivalue_append_amended_witness :
    putParams [("url", "u")] "hide_selectors" ["a", "b"] =
        [("url", "u")] ++ ["a", "b"].map (fun w => ("hide_selectors", w)) ∧
    getAll (putParams [("url", "u")] "hide_selectors" ["x"]) "hide_selectors" = ["x"] ∧
    (TakeOptions.hideSelectors ⟨[("url", "u")]⟩ ["a", "b"]).query =
        [("url", "u")] ++ ["a", "b"].map (fun w => ("hide_selectors", w)) ∧
    (AnimateOptions.hideSelectors ⟨[("url", "u")]⟩ ["a", "b"]).query =
        [("url", "u")] ++ ["a", "b"].map (fun w => ("hide_selectors", w)) :=
  c4_multivalue_append_amended [("url", "u")] "hide_selectors" "x" ["a", "b"] (by decide)

/-- C5 fails on the code: `Big(40).toFixed(20)` is
`"40.00000000000000000000"` and `replace(/0+$/, "")` strips only the trailing
zeros, so the serialized value is `"40."` — the decimal point survives — and
not `"40"`. -/
theorem c5_geolocation_counterexample :
    geoFormat ⟨40, 0⟩ = "40." ∧
    getAll
        ((TakeOptions.url "https://example.com").geolocationLatitude ⟨40, 0⟩).toQuery
        "geolocation_latitude" = ["40."] ∧
    getAll
        ((TakeOptions.url "https://example.com").geolocationLatitude ⟨40, 0⟩).toQuery
        "geolocation_latitude" ≠ ["40"] := by
  exact ⟨by decide, by decide, by decide⟩

/-- C5 as amended: the serialized coordinate never uses exponential notation
and never ends in a redundant zero digit — trailing zeros of the 20-digit
fixed-point expansion are stripped — but when every fraction digit is zero
the trailing decimal point is kept: the input 40.0 serializes as `"40."`,
not `"40"`, `"4e1"` or `"40.00000000000000000000"`. -/
theorem c5_geolocation_format_amended (d : JSDecimal) :
    ((geoFormat d).data.all (fun c => !(c == 'e') && !(c == 'E'))) = true ∧
    ((geoFormat d).data.getLast? == some '0') = false ∧
    geoFormat ⟨40, 0⟩ = "40." ∧
    getAll
        ((TakeOptions.url "https://example.com").geolocationLatitude ⟨40, 0⟩).toQuery
        "geolocation_latitude" = ["40."] ∧
    getAll
        ((AnimateOptions.url "https://example.com").geolocationLongitude ⟨40, 0⟩).toQuery
        "geolocation_longitude" = ["40."] := by
  refine ⟨geoFormat_no_exponential d, geoFormat_no_trailing_zero d, by decide, by decide,
    by decide⟩

/-- C6: invoking a single-value boolean setter twice with the same value is
idempotent — the second write replaces the first, the serialized query is
unchanged, and the key occurs exactly once — for `put` in general and for
`blockAds` on both options classes. -/
theorem c6_single_value_idempotent (o : TakeOptions) (ao : AnimateOptions) (q : Params)
    (k v : String) (b : Bool) :
    putParams (putParams q k [v]) k [v] = putParams q k [v] ∧
    getAll (putParams q k [v]) k = [v] ∧
    (o.blockAds b).blockAds b = o.blockAds b ∧
    (ao.blockAds b).blockAds b = ao.blockAds b ∧
    getAll ((o.blockAds b).blockAds b).toQuery "block_ads" =
      [if b then "true" else "false"] ∧
    getAll ((ao.blockAds b).blockAds b).toQuery "block_ads" =
      [if b then "true" else "false"] := by
  refine ⟨?_, ?_, ?_, ?_, ?_, ?_⟩
  · rw [putParams_singleton, putParams_singleton, setParam_idem]
  · rw [putParams_singleton]
    exact getAll_setParam_self q k v
  · show (⟨putParams (putParams o.query "block_ads" [if b then "true" else "false"])
        "block_ads" [if b then "true" else "false"]⟩ : TakeOptions) =
      ⟨putParams o.query "block_ads" [if b then "true" else "false"]⟩
    rw [putParams_singleton, putParams_singleton, setParam_idem]
  · show (⟨putParams (putParams ao.query "block_ads" [if b then "true" else "false"])
        "block_ads" [if b then "true" else "false"]⟩ : AnimateOptions) =
      ⟨putParams ao.query "block_ads" [if b then "true" else "false"]⟩
    rw [putParams_singleton, putParams_singleton, setParam_idem]
  · rw [toQuery_eq]
    show getAll (putParams (putParams o.query "block_ads" [if b then "true" else "false"])
        "block_ads" [if b then "true" else "false"]) "block_ads" = _
    rw [putParams_singleton, putParams_singleton, setParam_idem]
    exact getAll_setParam_self _ _ _
  · rw [animate_toQuery_eq]
    show getAll (putParams (putParams ao.query "block_ads" [if b then "true" else "false"])
        "block_ads" [if b then "true" else "false"]) "block_ads" = _
    rw [putParams_singleton, putParams_singleton, setParam_idem]
    exact getAll_setParam_self _ _ _

/-- C7: the unsigned take URL carries no `signature` parameter, the signed
take URL is exactly the unsigned one with `&signature=<hex HMAC>` appended,
and on the three-parameter example the unsigned URL is the known signed URL
minus its signature suffix. -/
theorem c7_signed_extends_unsigned (c : Client) (o : TakeOptions)
    (hsig : "signature" ∉ o.query.map Prod.fst) :
    Client.generateSignedTakeURL c o =
        Client.generateTakeURL c o ++ "&signature=" ++
          signQueryString
            (serializeParams (appendParam o.toQuery "access_key" c.accessKey))
            c.secretKey ∧
    "signature" ∉ (appendParam o.toQuery "access_key" c.accessKey).map Prod.fst ∧
    Client.generateTakeURL ⟨"RcLsdM6uhIN6gw", "MW2vfkkgLTzGGw"⟩
        ((((TakeOptions.url "https://example.com").blockAds true).fullPage true).userAgent
          "Mozilla/5.0 (X11; Linux x86_64) AppleWebKit/537.36 (KHTML, like Gecko) Chrome/51.0.2704.103 Safari/537.36") =
      "https://api.screenshotone.com/take?url=https%3A%2F%2Fexample.com&block_ads=true&full_page=true&user_agent=Mozilla%2F5.0+%28X11%3B+Linux+x86_64%29+AppleWebKit%2F537.36+%28KHTML%2C+like+Gecko%29+Chrome%2F51.0.2704.103+Safari%2F537.36&access_key=RcLsdM6uhIN6gw" ∧
    Client.generateSignedTakeURL ⟨"RcLsdM6uhIN6gw", "MW2vfkkgLTzGGw"⟩
        ((((TakeOptions.url "https://example.com").blockAds true).fullPage true).userAgent
          "Mozilla/5.0 (X11; Linux x86_64) AppleWebKit/537.36 (KHTML, like Gecko) Chrome/51.0.2704.103 Safari/537.36") =
      "https://api.screenshotone.com/take?url=https%3A%2F%2Fexample.com&block_ads=true&full_page=true&user_agent=Mozilla%2F5.0+%28X11%3B+Linux+x86_64%29+AppleWebKit%2F537.36+%28KHTML%2C+like+Gecko%29+Chrome%2F51.0.2704.103+Safari%2F537.36&access_key=RcLsdM6uhIN6gw"
        ++ "&signature=ea217db7d746c8bf9b710257d62ef09670b003137d239ee4c81eae3645b4a901" := by
  refine ⟨?_, ?_, by decide, by decide⟩
  · have h1 : Client.generateSignedTakeURL c o =
        API_BASE_URL ++ API_TAKE_PATH ++ "?" ++
          (serializeParams (appendParam o.toQuery "access_key" c.accessKey) ++
            "&signature=" ++
            signQueryString
              (serializeParams (appendParam o.toQuery "access_key" c.accessKey))
              c.secretKey) := rfl
    have h2 : Client.generateTakeURL c o =
        API_BASE_URL ++ API_TAKE_PATH ++ "?" ++
          serializeParams (appendParam o.toQuery "access_key" c.accessKey) := rfl
    rw [h1, h2]
    simp [String.append_assoc]
  · rw [toQuery_eq]
    unfold appendParam
    rw [List.map_append, List.mem_append]
    push_neg
    refine ⟨hsig, ?_⟩
    simp

/-- Witness for C7 at the three-parameter example. -/
theorem c7_signed_extends_unsigned_witness :
    Client.generateSignedTakeURL ⟨"RcLsdM6uhIN6gw", "MW2vfkkgLTzGGw"⟩
        ((((TakeOptions.url "https://example.com").blockAds true).fullPage true).userAgent
          "Mozilla/5.0 (X11; Linux x86_64) AppleWebKit/537.36 (KHTML, like Gecko) Chrome/51.0.2704.103 Safari/537.36") =
        Client.generateTakeURL ⟨"RcLsdM6uhIN6gw", "MW2vfkkgLTzGGw"⟩
            ((((TakeOptions.url "https://example.com").blockAds true).fullPage
                true).userAgent
              "Mozilla/5.0 (X11; Linux x86_64) AppleWebKit/537.36 (KHTML, like Gecko) Chrome/51.0.2704.103 Safari/537.36") ++
          "&signature=" ++
          signQueryString
            (serializeParams
              (appendParam
                ((((TakeOptions.url "https://example.com").blockAds true).fullPage
                      true).userAgent
                    "Mozilla/5.0 (X11; Linux x86_64) AppleWebKit/537.36 (KHTML, like Gecko) Chrome/51.0.2704.103 Safari/537.36").toQuery
                "access_key" "RcLsdM6uhIN6gw"))
            "MW2vfkkgLTzGGw" ∧
    "signature" ∉
      (appendParam
          ((((TakeOptions.url "https://example.com").blockAds true).fullPage true).userAgent
              "Mozilla/5.0 (X11; Linux x86_64) AppleWebKit/537.36 (KHTML, like Gecko) Chrome/51.0.2704.103 Safari/537.36").toQuery
          "access_key" "RcLsdM6uhIN6gw").map Prod.fst ∧
    Client.generateTakeURL ⟨"RcLsdM6uhIN6gw", "MW2vfkkgLTzGGw"⟩
        ((((TakeOptions.url "https://example.com").blockAds true).fullPage true).userAgent
          "Mozilla/5.0 (X11; Linux x86_64) AppleWebKit/537.36 (KHTML, like Gecko) Chrome/51.0.2704.103 Safari/537.36") =
      "https://api.screenshotone.com/take?url=https%3A%2F%2Fexample.com&block_ads=true&full_page=true&user_agent=Mozilla%2F5.0+%28X11%3B+Linux+x86_64%29+AppleWebKit%2F537.36+%28KHTML%2C+like+Gecko%29+Chrome%2F51.0.2704.103+Safari%2F537.36&access_key=RcLsdM6uhIN6gw" ∧
    Client.generateSignedTakeURL ⟨"RcLsdM6uhIN6gw", "MW2vfkkgLTzGGw"⟩
        ((((TakeOptions.url "https://example.com").blockAds true).fullPage true).userAgent
          "Mozilla/5.0 (X11; Linux x86_64) AppleWebKit/537.36 (KHTML, like Gecko) Chrome/51.0.2704.103 Safari/537.36") =
      "https://api.screenshotone.com/take?url=https%3A%2F%2Fexample.com&block_ads=true&full_page=true&user_agent=Mozilla%2F5.0+%28X11%3B+Linux+x86_64%29+AppleWebKit%2F537.36+%28KHTML%2C+like+Gecko%29+Chrome%2F51.0.2704.103+Safari%2F537.36&access_key=RcLsdM6uhIN6gw"
        ++ "&signature=ea217db7d746c8bf9b710257d62ef09670b003137d239ee4c81eae3645b4a901" :=
  c7_signed_extends_unsigned ⟨"RcLsdM6uhIN6gw", "MW2vfkkgLTzGGw"⟩
    ((((TakeOptions.url "https://example.com").blockAds true).fullPage true).userAgent
      "Mozilla/5.0 (X11; Linux x86_64) AppleWebKit/537.36 (KHTML, like Gecko) Chrome/51.0.2704.103 Safari/537.36")
    (by decide)

/-- C8: `toQuery` is an independent snapshot — the Client's appending of the
access key mutates only the snapshot object, writing to the options object
after snapshotting leaves the snapshot untouched, and repeating
`generateTakeURL` on the unmodified options object changes nothing and
returns the same string. -/
theorem c8_toquery_snapshot_independent (c : Client) (h : Heap) (r : Nat) (q : Params)
    (k v : String) (hr : r < h.length) :
    readRef (generateTakeURLRef c h r).1 r = readRef h r ∧
    readRef (appendRef (toQueryRef h r).1 (toQueryRef h r).2 k v) r = readRef h r ∧
    readRef (writeRef (toQueryRef h r).1 r q) (toQueryRef h r).2 =
      readRef (toQueryRef h r).1 (toQueryRef h r).2 ∧
    (generateTakeURLRef c (generateTakeURLRef c h r).1 r).2 =
      (generateTakeURLRef c h r).2 := by
  refine ⟨generateTakeURLRef_heap c h hr, ?_, ?_, ?_⟩
  · unfold appendRef
    rw [toQueryRef_snd, toQueryRef_fst, readRef_set_ne _ _ (by omega),
      readRef_append_lt _ _ hr]
  · rw [toQueryRef_snd]
    exact readRef_set_ne _ _ (by omega)
  · rw [generateTakeURLRef_str, generateTakeURLRef_str, generateTakeURLRef_heap c h hr]

/-- Witness for C8 on a one-object heap. -/
theorem c8_toquery_snapshot_independent_witness :
    readRef
        (generateTakeURLRef ⟨"RcLsdM6uhIN6gw", "MW2vfkkgLTzGGw"⟩ [[("url", "u")]] 0).1 0 =
      readRef [[("url", "u")]] 0 ∧
    readRef
        (appendRef (toQueryRef [[("url", "u")]] 0).1 (toQueryRef [[("url", "u")]] 0).2 "x"
          "y") 0 =
      readRef [[("url", "u")]] 0 ∧
    readRef (writeRef (toQueryRef [[("url", "u")]] 0).1 0 [])
        (toQueryRef [[("url", "u")]] 0).2 =
      readRef (toQueryRef [[("url", "u")]] 0).1 (toQueryRef [[("url", "u")]] 0).2 ∧
    (generateTakeURLRef ⟨"RcLsdM6uhIN6gw", "MW2vfkkgLTzGGw"⟩
        (generateTakeURLRef ⟨"RcLsdM6uhIN6gw", "MW2vfkkgLTzGGw"⟩ [[("url", "u")]] 0).1
        0).2 =
      (generateTakeURLRef ⟨"RcLsdM6uhIN6gw", "MW2vfkkgLTzGGw"⟩ [[("url", "u")]] 0).2 :=
  c8_toquery_snapshot_independent ⟨"RcLsdM6uhIN6gw", "MW2vfkkgLTzGGw"⟩ [[("url", "u")]] 0
    [] "x" "y" (by decide)

/-- C9: overwriting an already-present single-value key replaces the value in
place — the key keeps the serialization position of its first write, the
entries before it are untouched, and the key occurs exactly once with the new
value; it is never moved to the end. -/
theorem c9_overwrite_keeps_position (q : Params) (k v : String)
    (hmem : k ∈ q.map Prod.fst) :
    (putParams q k [v]).findIdx (fun p => p.1 = k) = q.findIdx (fun p => p.1 = k) ∧
    (putParams q k [v]).take (q.findIdx (fun p => p.1 = k)) =
      q.take (q.findIdx (fun p => p.1 = k)) ∧
    (putParams q k [v]).getD (q.findIdx (fun p => p.1 = k)) ("", "") = (k, v) ∧
    getAll (putParams q k [v]) k = [v] := by
  rw [putParams_singleton]
  obtain ⟨h1, h2, h3⟩ := setParam_position q k v hmem
  exact ⟨h1, h2, h3, getAll_setParam_self q k v⟩

/-- Witness for C9: overwriting `block_ads` in a two-key query. -/
theorem c9_overwrite_keeps_position_witness :
    (putParams [("block_ads", "true"), ("full_page", "true")] "block_ads"
          ["false"]).findIdx (fun p => p.1 = "block_ads") =
      ([("block_ads", "true"), ("full_page", "true")] : Params).findIdx
        (fun p => p.1 = "block_ads") ∧
    (putParams [("block_ads", "true"), ("full_page", "true")] "block_ads" ["false"]).take
        (([("block_ads", "true"), ("full_page", "true")] : Params).findIdx
          (fun p => p.1 = "block_ads")) =
      ([("block_ads", "true"), ("full_page", "true")] : Params).take
        (([("block_ads", "true"), ("full_page", "true")] : Params).findIdx
          (fun p => p.1 = "block_ads")) ∧
    (putParams [("block_ads", "true"), ("full_page", "true")] "block_ads" ["false"]).getD
        (([("block_ads", "true"), ("full_page", "true")] : Params).findIdx
          (fun p => p.1 = "block_ads")) ("", "") = ("block_ads", "false") ∧
    getAll (putParams [("block_ads", "true"), ("full_page", "true")] "block_ads" ["false"])
        "block_ads" = ["false"] :=
  c9_overwrite_keeps_position [("block_ads", "true"), ("full_page", "true")] "block_ads"
    "false" (by decide)

/-- C10: calling a variadic multi-value setter with no arguments leaves the
options object — and therefore every URL later generated from it — exactly
unchanged, on both options classes. -/
theorem c10_empty_variadic_noop (o : TakeOptions) (ao : AnimateOptions) (c : Client) :
    o.hideSelectors [] = o ∧ o.scriptsWaitUntil [] = o ∧ o.blockRequests [] = o ∧
    o.blockResources [] = o ∧ o.cookies [] = o ∧ o.headers [] = o ∧
    ao.hideSelectors [] = ao ∧ ao.scriptsWaitUntil [] = ao ∧ ao.blockRequests [] = ao ∧
    ao.blockResources [] = ao ∧ ao.cookies [] = ao ∧ ao.headers [] = ao ∧
    Client.generateTakeURL c (o.hideSelectors []) = Client.generateTakeURL c o ∧
    Client.generateSignedTakeURL c (o.hideSelectors []) =
      Client.generateSignedTakeURL c o ∧
    Client.generateSignedAnimateURL c (ao.hideSelectors []) =
      Client.generateSignedAnimateURL c ao :=
  ⟨rfl, rfl, rfl, rfl, rfl, rfl, rfl, rfl, rfl, rfl, rfl, rfl, rfl, rfl, rfl⟩

end ScreenshotOne
